import Mathlib

set_option autoImplicit false

/-
  Verification of the Oppia suggestion lifecycle and query engine
  (core/storage/suggestion/gae_models.py).

  The record store is embedded as a list of suggestion records in insertion
  order.  The generic store adapter operations (get_by_id, put, get_all,
  fetch) are modelled from the spec's Store Adapter contract: get_by_id is
  lookup by the unique id, put appends a validated record, get_all is the
  unbounded iterator over the whole collection, fetch with a limit takes at
  most that many results and fetch without a limit takes everything.
  The default query limit (feconf.DEFAULT_QUERY_LIMIT, not part of this
  source tree) is modelled from the spec as an explicit configuration value
  threaded into each bounded operation, as the spec's design notes direct.
-/

namespace OppiaSuggestion

/-- Target type constant: exploration. -/
def TARGET_TYPE_EXPLORATION : String := "exploration"

/-- Target type constant: question. -/
def TARGET_TYPE_QUESTION : String := "question"

/-- Target type constant: skill. -/
def TARGET_TYPE_SKILL : String := "skill"

/-- Target type constant: topic. -/
def TARGET_TYPE_TOPIC : String := "topic"

/-- Closed choice set for the target_type field. -/
def TARGET_TYPE_CHOICES : List String :=
  [TARGET_TYPE_EXPLORATION, TARGET_TYPE_QUESTION, TARGET_TYPE_SKILL, TARGET_TYPE_TOPIC]

/-- Status constant: accepted. -/
def STATUS_ACCEPTED : String := "accepted"

/-- Status constant: in review. -/
def STATUS_IN_REVIEW : String := "review"

/-- Status constant: rejected. -/
def STATUS_REJECTED : String := "rejected"

/-- Closed choice set for the status field. -/
def STATUS_CHOICES : List String := [STATUS_ACCEPTED, STATUS_IN_REVIEW, STATUS_REJECTED]

/-- Suggestion type constant: edit exploration state content. -/
def SUGGESTION_TYPE_EDIT_STATE_CONTENT : String := "edit_exploration_state_content"

/-- Suggestion type constant: translate content. -/
def SUGGESTION_TYPE_TRANSLATE_CONTENT : String := "translate_content"

/-- Suggestion type constant: add question. -/
def SUGGESTION_TYPE_ADD_QUESTION : String := "add_question"

/-- Closed choice set for the suggestion_type field. -/
def SUGGESTION_TYPE_CHOICES : List String :=
  [SUGGESTION_TYPE_EDIT_STATE_CONTENT, SUGGESTION_TYPE_TRANSLATE_CONTENT,
   SUGGESTION_TYPE_ADD_QUESTION]

/-- Score type constant: content. -/
def SCORE_TYPE_CONTENT : String := "content"

/-- Score type constant: translation. -/
def SCORE_TYPE_TRANSLATION : String := "translation"

/-- Score type constant: question. -/
def SCORE_TYPE_QUESTION : String := "question"

/-- Closed choice set of score types. -/
def SCORE_TYPE_CHOICES : List String :=
  [SCORE_TYPE_CONTENT, SCORE_TYPE_TRANSLATION, SCORE_TYPE_QUESTION]

/-- The delimiter used in the score category field. -/
def SCORE_CATEGORY_DELIMITER : Char := '.'

/-- Field names that query_suggestions may filter on. -/
def ALLOWED_QUERY_FIELDS : List String :=
  ["suggestion_type", "target_type", "target_id", "status", "author_id",
   "final_reviewer_id", "score_category"]

/-- Threshold number of days after which a suggestion is accepted. -/
def THRESHOLD_DAYS_BEFORE_ACCEPT : Int := 7

/-- Threshold time in milliseconds after which a suggestion is stale. -/
def THRESHOLD_TIME_BEFORE_ACCEPT_IN_MSECS : Int :=
  THRESHOLD_DAYS_BEFORE_ACCEPT * 24 * 60 * 60 * 1000

/-- One suggestion record of GeneralSuggestionModel.  Timestamps are integer
milliseconds; last_updated is maintained by the store on every write
(modelled from the spec's data model).  change_cmd is the opaque key-value
payload.  final_reviewer_id is optional in the schema. -/
structure GeneralSuggestionModel where
  id : String
  suggestion_type : String
  target_type : String
  target_id : String
  target_version_at_submission : Int
  status : String
  author_id : String
  final_reviewer_id : Option String
  change_cmd : List (String × String)
  score_category : String
  last_updated : Int
  deriving DecidableEq

/-- Error taxonomy of the core, one constructor per distinct failure raised
by gae_models.py or by the store schema validation. -/
inductive StoreError where
  | duplicateId (id : String)
  | invalidField (field : String)
  | invalidChoice (field : String)
  | emptyInput
  deriving DecidableEq

/-- Store adapter lookup by unique id (modelled from the spec's Store
Adapter contract). -/
def get_by_id (store : List GeneralSuggestionModel) (id : String) :
    Option GeneralSuggestionModel :=
  store.find? (fun m => m.id == id)

/-- Store adapter put: the schema rejects enum-valued fields outside their
choice sets (choices=... on the StringProperty declarations), then appends
the record. -/
def put (store : List GeneralSuggestionModel) (m : GeneralSuggestionModel) :
    Except StoreError (List GeneralSuggestionModel) :=
  if !SUGGESTION_TYPE_CHOICES.contains m.suggestion_type then
    .error (.invalidChoice "suggestion_type")
  else if !TARGET_TYPE_CHOICES.contains m.target_type then
    .error (.invalidChoice "target_type")
  else if !STATUS_CHOICES.contains m.status then
    .error (.invalidChoice "status")
  else
    .ok (store ++ [m])

/-- GeneralSuggestionModel.create: fails when a suggestion with the given
id already exists, otherwise puts one new record whose id is the thread id
and whose last_updated is the write time. -/
def create (store : List GeneralSuggestionModel)
    (suggestion_type target_type target_id : String)
    (target_version_at_submission : Int)
    (status author_id : String) (final_reviewer_id : Option String)
    (change_cmd : List (String × String)) (score_category thread_id : String)
    (now : Int) : Except StoreError (List GeneralSuggestionModel) :=
  let instance_id := thread_id
  if (get_by_id store instance_id).isSome then
    .error (.duplicateId instance_id)
  else
    put store
      { id := instance_id, suggestion_type := suggestion_type,
        target_type := target_type, target_id := target_id,
        target_version_at_submission := target_version_at_submission,
        status := status, author_id := author_id,
        final_reviewer_id := final_reviewer_id, change_cmd := change_cmd,
        score_category := score_category, last_updated := now }

/-- Value of the field named by getattr(cls, field) on a record; none for a
name outside the schema, and the stored optional value for
final_reviewer_id. -/
def getQueryField (m : GeneralSuggestionModel) (field : String) : Option String :=
  if field = "suggestion_type" then some m.suggestion_type
  else if field = "target_type" then some m.target_type
  else if field = "target_id" then some m.target_id
  else if field = "status" then some m.status
  else if field = "author_id" then some m.author_id
  else if field = "final_reviewer_id" then m.final_reviewer_id
  else if field = "score_category" then some m.score_category
  else none

/-- One equality filter of the query builder: the record's field value
equals the queried value. -/
def matchesFilter (m : GeneralSuggestionModel) (field value : String) : Bool :=
  getQueryField m field == some value

/-- The filter loop of query_suggestions: each pair must name an allowed
field, otherwise the whole query fails with InvalidField; allowed pairs
narrow the query conjunctively. -/
def applyQueryFilters (store : List GeneralSuggestionModel) :
    List (String × String) → Except StoreError (List GeneralSuggestionModel)
  | [] => .ok store
  | (field, value) :: rest =>
    if ALLOWED_QUERY_FIELDS.contains field then
      applyQueryFilters (store.filter (fun m => matchesFilter m field value)) rest
    else
      .error (.invalidField field)

/-- GeneralSuggestionModel.query_suggestions: applies the filter pairs then
fetches at most limit results (feconf.DEFAULT_QUERY_LIMIT, threaded
explicitly). -/
def query_suggestions (store : List GeneralSuggestionModel)
    (query_fields_and_values : List (String × String)) (limit : Nat) :
    Except StoreError (List GeneralSuggestionModel) :=
  (applyQueryFilters store query_fields_and_values).map (fun l => l.take limit)

/-- Staleness scan at an explicit threshold: the module constant
THRESHOLD_TIME_BEFORE_ACCEPT_IN_MSECS is configurable (the repository's own
tests swap it), so the threshold is passed explicitly here.  The code
computes threshold_time = utcnow() - threshold and keeps IN_REVIEW records
with last_updated strictly before threshold_time; the final fetch() has no
limit. -/
def get_all_stale_suggestions_with_threshold (threshold_msecs : Int)
    (store : List GeneralSuggestionModel) (now : Int) :
    List GeneralSuggestionModel :=
  let threshold_time := now - threshold_msecs
  (store.filter (fun m => m.status == STATUS_IN_REVIEW)).filter
    (fun m => m.last_updated < threshold_time)

/-- GeneralSuggestionModel.get_all_stale_suggestions at the default
threshold constant. -/
def get_all_stale_suggestions (store : List GeneralSuggestionModel) (now : Int) :
    List GeneralSuggestionModel :=
  get_all_stale_suggestions_with_threshold
    THRESHOLD_TIME_BEFORE_ACCEPT_IN_MSECS store now

/-- GeneralSuggestionModel.get_in_review_suggestions_in_score_categories:
rejects an empty category list, otherwise returns IN_REVIEW records whose
score_category is in the list and whose author differs from the user, up to
limit. -/
def get_in_review_suggestions_in_score_categories
    (store : List GeneralSuggestionModel) (score_categories : List String)
    (user_id : String) (limit : Nat) :
    Except StoreError (List GeneralSuggestionModel) :=
  if score_categories.length = 0 then
    .error .emptyInput
  else
    .ok ((((store.filter (fun m => m.status == STATUS_IN_REVIEW)).filter
      (fun m => score_categories.contains m.score_category)).filter
      (fun m => m.author_id != user_id)).take limit)

/-- GeneralSuggestionModel.get_in_review_suggestions_of_suggestion_type. -/
def get_in_review_suggestions_of_suggestion_type
    (store : List GeneralSuggestionModel) (suggestion_type user_id : String)
    (limit : Nat) : List GeneralSuggestionModel :=
  (((store.filter (fun m => m.status == STATUS_IN_REVIEW)).filter
    (fun m => m.suggestion_type == suggestion_type)).filter
    (fun m => m.author_id != user_id)).take limit

/-- GeneralSuggestionModel.get_user_created_suggestions_of_suggestion_type. -/
def get_user_created_suggestions_of_suggestion_type
    (store : List GeneralSuggestionModel) (suggestion_type user_id : String)
    (limit : Nat) : List GeneralSuggestionModel :=
  (((store.filter (fun m => m.status == STATUS_IN_REVIEW)).filter
    (fun m => m.suggestion_type == suggestion_type)).filter
    (fun m => m.author_id == user_id)).take limit

/-- The redacted per-suggestion record built by export_data: exactly the six
exported fields, with author_id, final_reviewer_id and score_category
omitted by construction. -/
structure SuggestionExportData where
  suggestion_type : String
  target_type : String
  target_id : String
  target_version_at_submission : Int
  status : String
  change_cmd : List (String × String)
  deriving DecidableEq

/-- The dictionary value export_data builds for one suggestion record. -/
def exportEntryOf (m : GeneralSuggestionModel) : SuggestionExportData :=
  { suggestion_type := m.suggestion_type, target_type := m.target_type,
    target_id := m.target_id,
    target_version_at_submission := m.target_version_at_submission,
    status := m.status, change_cmd := m.change_cmd }

/-- Insertion into an insertion-ordered dictionary (Python dict assignment):
replaces the value at an existing key, otherwise appends the pair. -/
def upsert (d : List (String × SuggestionExportData)) (key : String)
    (val : SuggestionExportData) : List (String × SuggestionExportData) :=
  match d with
  | [] => [(key, val)]
  | (k, v) :: rest =>
    if k = key then (key, val) :: rest else (k, v) :: upsert rest key val

/-- GeneralSuggestionModel.export_data: one dictionary entry per stored
suggestion authored by the user, keyed by suggestion id; the fetch() has no
limit. -/
def export_data (store : List GeneralSuggestionModel) (user_id : String) :
    List (String × SuggestionExportData) :=
  (store.filter (fun m => m.author_id == user_id)).foldl
    (fun d m => upsert d m.id (exportEntryOf m)) []

/-- Conjunction of all equality filters in a query pair list. -/
def conjMatches (qfv : List (String × String)) (m : GeneralSuggestionModel) : Bool :=
  qfv.all (fun p => matchesFilter m p.1 p.2)

/-- Splitting a character list on a delimiter character, with the semantics
of Python str.split on a one-character separator. -/
def splitOnChar (c : Char) : List Char → List (List Char)
  | [] => [[]]
  | x :: xs =>
    match splitOnChar c xs with
    | [] => [[]]
    | h :: t => if x = c then [] :: h :: t else (x :: h) :: t

/-- The documented shape of score_category: splitting on the delimiter
yields a first component that is one of SCORE_TYPE_CHOICES and does not
itself contain the delimiter. -/
def scoreCategoryWellFormed (sc : String) : Bool :=
  match splitOnChar SCORE_CATEGORY_DELIMITER sc.toList with
  | [] => false
  | first :: _ =>
    SCORE_TYPE_CHOICES.any (fun t => t.toList == first) &&
      !(first.contains SCORE_CATEGORY_DELIMITER)

/-- Example record: an IN_REVIEW suggestion by author X on category
content.English, written at time 0. -/
def suggA : GeneralSuggestionModel :=
  { id := "exploration.exp1.thread_1",
    suggestion_type := SUGGESTION_TYPE_EDIT_STATE_CONTENT,
    target_type := TARGET_TYPE_EXPLORATION,
    target_id := "exp1", target_version_at_submission := 1,
    status := STATUS_IN_REVIEW, author_id := "X",
    final_reviewer_id := none, change_cmd := [],
    score_category := "content.English", last_updated := 0 }

/-- Example record: an IN_REVIEW suggestion by author Y on the same
category, written at time 0. -/
def suggB : GeneralSuggestionModel :=
  { id := "exploration.exp1.thread_2",
    suggestion_type := SUGGESTION_TYPE_EDIT_STATE_CONTENT,
    target_type := TARGET_TYPE_EXPLORATION,
    target_id := "exp1", target_version_at_submission := 1,
    status := STATUS_IN_REVIEW, author_id := "Y",
    final_reviewer_id := none, change_cmd := [],
    score_category := "content.English", last_updated := 0 }

/-- Example record: an accepted suggestion authored by X with its own id. -/
def suggC : GeneralSuggestionModel :=
  { id := "exploration.exp1.thread_3",
    suggestion_type := SUGGESTION_TYPE_EDIT_STATE_CONTENT,
    target_type := TARGET_TYPE_EXPLORATION,
    target_id := "exp1", target_version_at_submission := 1,
    status := STATUS_ACCEPTED, author_id := "X",
    final_reviewer_id := some "reviewer_1", change_cmd := [],
    score_category := "content.English", last_updated := 0 }

/-- The record produced by creating with score_category category1, exactly
as the repository's own tests do. -/
def categoryOnlyRecord : GeneralSuggestionModel :=
  { id := "exploration.exp1.thread_6",
    suggestion_type := SUGGESTION_TYPE_EDIT_STATE_CONTENT,
    target_type := TARGET_TYPE_EXPLORATION,
    target_id := "exp1", target_version_at_submission := 1,
    status := STATUS_IN_REVIEW, author_id := "author_3",
    final_reviewer_id := some "reviewer_2", change_cmd := [],
    score_category := "category1", last_updated := 0 }

/-- C1: creating with an id that already has a record fails with
DuplicateId (the id check precedes the write, so the store value is not
replaced and the first record stays untouched - the error constructor
carries no new store); creating with a fresh id and valid enum fields
succeeds and appends exactly one new record built from the arguments
(all-or-nothing). -/
theorem create_duplicate_id_all_or_nothing
    (store : List GeneralSuggestionModel)
    (st tt tid : String) (ver : Int) (status author : String)
    (rev : Option String) (cmd : List (String × String))
    (sc id : String) (now : Int) :
    ((get_by_id store id).isSome = true →
      create store st tt tid ver status author rev cmd sc id now =
        .error (.duplicateId id)) ∧
    (get_by_id store id = none →
      st ∈ SUGGESTION_TYPE_CHOICES → tt ∈ TARGET_TYPE_CHOICES →
      status ∈ STATUS_CHOICES →
      create store st tt tid ver status author rev cmd sc id now =
        .ok (store ++ [⟨id, st, tt, tid, ver, status, author, rev, cmd, sc, now⟩])) := by
  constructor
  · intro h
    simp [create, h]
  · intro h h1 h2 h3
    simp [create, h, put, h1, h2, h3]

/-- Witness for C1 at concrete inputs: re-creating suggA's id over the
store [suggA] fails with DuplicateId, and creating a fresh id appends the
new record. -/
theorem create_duplicate_id_all_or_nothing_witness :
    create [suggA] SUGGESTION_TYPE_EDIT_STATE_CONTENT TARGET_TYPE_EXPLORATION
        "exp1" 1 STATUS_IN_REVIEW "X" none [] "content.English"
        "exploration.exp1.thread_1" 5 =
      .error (.duplicateId "exploration.exp1.thread_1") ∧
    create [suggA] SUGGESTION_TYPE_EDIT_STATE_CONTENT TARGET_TYPE_EXPLORATION
        "exp1" 1 STATUS_IN_REVIEW "Y" none [] "content.English"
        "exploration.exp1.thread_2" 0 =
      .ok ([suggA] ++ [suggB]) :=
  ⟨(create_duplicate_id_all_or_nothing [suggA]
      SUGGESTION_TYPE_EDIT_STATE_CONTENT TARGET_TYPE_EXPLORATION "exp1" 1
      STATUS_IN_REVIEW "X" none [] "content.English"
      "exploration.exp1.thread_1" 5).1 (by decide),
   (create_duplicate_id_all_or_nothing [suggA]
      SUGGESTION_TYPE_EDIT_STATE_CONTENT TARGET_TYPE_EXPLORATION "exp1" 1
      STATUS_IN_REVIEW "Y" none [] "content.English"
      "exploration.exp1.thread_2" 0).2 (by decide) (by decide) (by decide)
      (by decide)⟩

/-- C5: calling get_in_review_suggestions_in_score_categories with an empty
category list always fails with EmptyInput, for every store state, user and
limit; the operation is read-only, so the store is untouched. -/
theorem reviewable_by_category_empty_input
    (store : List GeneralSuggestionModel) (user_id : String) (limit : Nat) :
    get_in_review_suggestions_in_score_categories store [] user_id limit =
      .error .emptyInput := rfl

/-- Counterexample to C2 as stated: suggA is IN_REVIEW and its age at time
604800000 is exactly the default threshold, yet get_all_stale_suggestions
omits it, because the code keeps only records with last_updated strictly
before now minus the threshold. -/
theorem stale_exact_threshold_excluded :
    suggA.status = STATUS_IN_REVIEW ∧
    (604800000 : Int) - suggA.last_updated =
      THRESHOLD_TIME_BEFORE_ACCEPT_IN_MSECS ∧
    get_all_stale_suggestions [suggA] 604800000 = [] := by decide

/-- C2 amended: a suggestion is returned by the staleness scan at a given
threshold if and only if it is stored, its status is IN_REVIEW, and its age
now - last_updated is strictly greater than the threshold (age exactly
equal to the threshold is not stale; at threshold 0 exactly the IN_REVIEW
suggestions last updated strictly before now qualify); the default scan
uses the 7-day millisecond threshold constant. -/
theorem stale_iff_in_review_and_strictly_older :
    (∀ (threshold : Int) (store : List GeneralSuggestionModel) (now : Int)
        (m : GeneralSuggestionModel),
      m ∈ get_all_stale_suggestions_with_threshold threshold store now ↔
        m ∈ store ∧ m.status = STATUS_IN_REVIEW ∧
          threshold < now - m.last_updated) ∧
    (∀ (store : List GeneralSuggestionModel) (now : Int),
      get_all_stale_suggestions store now =
        get_all_stale_suggestions_with_threshold
          THRESHOLD_TIME_BEFORE_ACCEPT_IN_MSECS store now) := by
  constructor
  · intro threshold store now m
    simp only [get_all_stale_suggestions_with_threshold, List.mem_filter,
      beq_iff_eq, decide_eq_true_eq]
    constructor
    · rintro ⟨⟨hm, hs⟩, hl⟩
      exact ⟨hm, hs, by omega⟩
    · rintro ⟨hm, hs, hl⟩
      exact ⟨⟨hm, hs⟩, by omega⟩
  · intro store now
    rfl

/-- If some pair of the filter list names a disallowed field, the filter
loop fails with InvalidField naming a disallowed field, for every start
store. -/
theorem applyQueryFilters_disallowed (qfv : List (String × String))
    (h : ∃ p ∈ qfv, p.1 ∉ ALLOWED_QUERY_FIELDS) :
    ∀ store, ∃ f, f ∉ ALLOWED_QUERY_FIELDS ∧
      applyQueryFilters store qfv = .error (.invalidField f) := by
  induction qfv with
  | nil => simp at h
  | cons p rest ih =>
    intro store
    obtain ⟨q, hq, hqf⟩ := h
    rcases p with ⟨f0, v0⟩
    by_cases hallow : ALLOWED_QUERY_FIELDS.contains f0
    · have hmem : f0 ∈ ALLOWED_QUERY_FIELDS := by simpa using hallow
      have hq' : q ∈ rest := by
        rcases List.mem_cons.mp hq with rfl | h'
        · exact absurd hmem hqf
        · exact h'
      obtain ⟨f, hf, hres⟩ :=
        ih ⟨q, hq', hqf⟩ (store.filter fun m => matchesFilter m f0 v0)
      refine ⟨f, hf, ?_⟩
      rw [applyQueryFilters, if_pos hallow]
      exact hres
    · refine ⟨f0, by simpa using hallow, ?_⟩
      rw [applyQueryFilters, if_neg hallow]

/-- If every pair of the filter list names an allowed field, the filter
loop succeeds and computes the conjunctive filter, for every start store. -/
theorem applyQueryFilters_allowed (qfv : List (String × String))
    (h : ∀ p ∈ qfv, p.1 ∈ ALLOWED_QUERY_FIELDS) :
    ∀ store, applyQueryFilters store qfv =
      .ok (store.filter (conjMatches qfv)) := by
  induction qfv with
  | nil =>
    intro store
    rw [applyQueryFilters]
    exact congrArg Except.ok (List.filter_eq_self.mpr (fun a _ => rfl)).symm
  | cons p rest ih =>
    intro store
    rcases p with ⟨f0, v0⟩
    have hallow : ALLOWED_QUERY_FIELDS.contains f0 := by
      simpa using h (f0, v0) (List.mem_cons_self _ _)
    have hrest : ∀ p ∈ rest, p.1 ∈ ALLOWED_QUERY_FIELDS :=
      fun q hq => h q (List.mem_cons_of_mem _ hq)
    rw [applyQueryFilters, if_pos hallow,
      ih hrest (store.filter fun m => matchesFilter m f0 v0)]
    rw [List.filter_filter]
    refine congrArg Except.ok (List.filter_congr ?_)
    intro m _
    simp [conjMatches, Bool.and_comm]

/-- C3: whenever at least one pair of the filter list names a field outside
the allow-list, query_suggestions fails with InvalidField (naming a
disallowed field) and returns no results at all, regardless of how many
other pairs use allowed fields. -/
theorem query_disallowed_field_fails (store : List GeneralSuggestionModel)
    (qfv : List (String × String)) (limit : Nat)
    (h : ∃ p ∈ qfv, p.1 ∉ ALLOWED_QUERY_FIELDS) :
    ∃ f, f ∉ ALLOWED_QUERY_FIELDS ∧
      query_suggestions store qfv limit = .error (.invalidField f) := by
  obtain ⟨f, hf, hres⟩ := applyQueryFilters_disallowed qfv h store
  exact ⟨f, hf, by simp [query_suggestions, hres, Except.map]⟩

/-- Witness for C3 at a concrete input: a query mixing the allowed
target_id field with the disallowed field name invalid_field fails with
InvalidField. -/
theorem query_disallowed_field_fails_witness :
    ∃ f, f ∉ ALLOWED_QUERY_FIELDS ∧
      query_suggestions [suggA]
        [("target_id", "exp1"), ("invalid_field", "value")] 5 =
        .error (.invalidField f) :=
  query_disallowed_field_fails [suggA]
    [("target_id", "exp1"), ("invalid_field", "value")] 5 (by decide)

/-- C8: when every filter pair names an allowed field, query_suggestions
succeeds and returns the suggestions satisfying the conjunction of the
equality tests, truncated to the limit; when the whole matching set fits
within the limit it is returned exactly; and the empty filter list is legal
and returns the bounded unfiltered store. -/
theorem query_allowed_conjunction (store : List GeneralSuggestionModel)
    (qfv : List (String × String)) (limit : Nat)
    (h : ∀ p ∈ qfv, p.1 ∈ ALLOWED_QUERY_FIELDS) :
    query_suggestions store qfv limit =
      .ok ((store.filter (conjMatches qfv)).take limit) ∧
    (store.countP (conjMatches qfv) ≤ limit →
      query_suggestions store qfv limit =
        .ok (store.filter (conjMatches qfv))) ∧
    query_suggestions store [] limit = .ok (store.take limit) := by
  refine ⟨?_, ?_, ?_⟩
  · simp [query_suggestions, applyQueryFilters_allowed qfv h store, Except.map]
  · intro hcount
    rw [List.countP_eq_length_filter] at hcount
    simp [query_suggestions, applyQueryFilters_allowed qfv h store,
      Except.map, List.take_of_length_le hcount]
  · simp [query_suggestions, applyQueryFilters, Except.map]

/-- Witness for C8 at a concrete input: filtering [suggA, suggB, suggC] by
author X and status review matches only suggA. -/
theorem query_allowed_conjunction_witness :
    query_suggestions [suggA, suggB, suggC]
        [("author_id", "X"), ("status", "review")] 7 =
      .ok (([suggA, suggB, suggC].filter
        (conjMatches [("author_id", "X"), ("status", "review")])).take 7) ∧
    ([suggA, suggB, suggC].countP
        (conjMatches [("author_id", "X"), ("status", "review")]) ≤ 7 →
      query_suggestions [suggA, suggB, suggC]
          [("author_id", "X"), ("status", "review")] 7 =
        .ok ([suggA, suggB, suggC].filter
          (conjMatches [("author_id", "X"), ("status", "review")]))) ∧
    query_suggestions [suggA, suggB, suggC] [] 7 =
      .ok ([suggA, suggB, suggC].take 7) :=
  query_allowed_conjunction [suggA, suggB, suggC]
    [("author_id", "X"), ("status", "review")] 7 (by decide)

/-- C10: for filter lists over allowed fields, query_suggestions gives the
same result on any permutation of the list: the conjunction of equality
filters is order-independent, and the store order (hence the bounded
prefix) is unaffected by the filter order. -/
theorem query_permutation_invariant (store : List GeneralSuggestionModel)
    (qfv qfv' : List (String × String)) (limit : Nat)
    (hperm : qfv.Perm qfv')
    (h : ∀ p ∈ qfv, p.1 ∈ ALLOWED_QUERY_FIELDS) :
    query_suggestions store qfv limit = query_suggestions store qfv' limit := by
  have h' : ∀ p ∈ qfv', p.1 ∈ ALLOWED_QUERY_FIELDS :=
    fun p hp => h p (hperm.mem_iff.mpr hp)
  unfold query_suggestions
  rw [applyQueryFilters_allowed qfv h store,
    applyQueryFilters_allowed qfv' h' store]
  have hfilt : store.filter (conjMatches qfv) =
      store.filter (conjMatches qfv') := by
    refine List.filter_congr ?_
    intro m _
    refine Bool.eq_iff_iff.mpr ?_
    simp only [conjMatches, List.all_eq_true]
    exact ⟨fun ha p hp => ha p (hperm.mem_iff.mpr hp),
      fun ha p hp => ha p (hperm.mem_iff.mp hp)⟩
  rw [hfilt]

/-- Witness for C10 at a concrete input: swapping the two filter pairs of
an allowed-field query leaves the result unchanged. -/
theorem query_permutation_invariant_witness :
    query_suggestions [suggA, suggB, suggC]
        [("author_id", "X"), ("status", "review")] 7 =
      query_suggestions [suggA, suggB, suggC]
        [("status", "review"), ("author_id", "X")] 7 :=
  query_permutation_invariant [suggA, suggB, suggC]
    [("author_id", "X"), ("status", "review")]
    [("status", "review"), ("author_id", "X")] 7
    (List.Perm.swap _ _ _) (by decide)

/-- C4: with a non-empty category list the reviewer-routing query succeeds
and returns only stored IN_REVIEW suggestions whose score_category is in
the list and whose author differs from the excluding user; when the whole
matching set fits within the limit the returned records are exactly those;
and on the concrete pair suggA (author X) / suggB (author Y), both
IN_REVIEW in category content.English, querying that category excluding X
returns only suggB. -/
theorem reviewable_by_category_spec (store : List GeneralSuggestionModel)
    (S : List String) (u : String) (limit : Nat) :
    (S ≠ [] →
      ∃ r, get_in_review_suggestions_in_score_categories store S u limit =
          .ok r ∧
        (∀ m ∈ r, m ∈ store ∧ m.status = STATUS_IN_REVIEW ∧
          m.score_category ∈ S ∧ m.author_id ≠ u) ∧
        (store.countP (fun m => (m.status == STATUS_IN_REVIEW &&
            S.contains m.score_category) && m.author_id != u) ≤ limit →
          ∀ m, m ∈ r ↔ (m ∈ store ∧ m.status = STATUS_IN_REVIEW ∧
            m.score_category ∈ S ∧ m.author_id ≠ u))) ∧
    get_in_review_suggestions_in_score_categories [suggA, suggB]
      ["content.English"] "X" 1000 = .ok [suggB] := by
  constructor
  · intro hS
    have hne : ¬ (S.length = 0) := by simpa [List.length_eq_zero] using hS
    have hmem : ∀ m, m ∈ ((store.filter
        (fun m => m.status == STATUS_IN_REVIEW)).filter
        (fun m => S.contains m.score_category)).filter
        (fun m => m.author_id != u) ↔
        (m ∈ store ∧ m.status = STATUS_IN_REVIEW ∧
          m.score_category ∈ S ∧ m.author_id ≠ u) := by
      intro m
      simp only [List.mem_filter, beq_iff_eq, bne_iff_ne, ne_eq]
      constructor
      · rintro ⟨⟨⟨h1, h2⟩, h3⟩, h4⟩
        exact ⟨h1, h2, by simpa using h3, h4⟩
      · rintro ⟨h1, h2, h3, h4⟩
        exact ⟨⟨⟨h1, h2⟩, by simpa using h3⟩, h4⟩
    refine ⟨(((store.filter (fun m => m.status == STATUS_IN_REVIEW)).filter
      (fun m => S.contains m.score_category)).filter
      (fun m => m.author_id != u)).take limit, ?_, ?_, ?_⟩
    · rw [get_in_review_suggestions_in_score_categories, if_neg hne]
    · intro m hm
      exact (hmem m).mp (List.take_subset limit _ hm)
    · intro hcount m
      have hcollapse : ((store.filter
          (fun m => m.status == STATUS_IN_REVIEW)).filter
          (fun m => S.contains m.score_category)).filter
          (fun m => m.author_id != u) =
          store.filter (fun m => (m.status == STATUS_IN_REVIEW &&
            S.contains m.score_category) && m.author_id != u) := by
        rw [List.filter_filter, List.filter_filter]
        refine List.filter_congr ?_
        intro m _
        cases h1 : (m.status == STATUS_IN_REVIEW) <;>
          cases h2 : (S.contains m.score_category) <;>
            cases h3 : (m.author_id != u) <;> rfl
      rw [List.countP_eq_length_filter] at hcount
      rw [← hcollapse] at hcount
      rw [List.take_of_length_le hcount]
      exact hmem m
  · rfl

/-- Witness for C4 at the concrete A/B scenario of the claim. -/
theorem reviewable_by_category_spec_witness :
    ∃ r, get_in_review_suggestions_in_score_categories [suggA, suggB]
        ["content.English"] "X" 1000 = .ok r ∧
      (∀ m ∈ r, m ∈ [suggA, suggB] ∧ m.status = STATUS_IN_REVIEW ∧
        m.score_category ∈ ["content.English"] ∧ m.author_id ≠ "X") ∧
      ([suggA, suggB].countP (fun m => (m.status == STATUS_IN_REVIEW &&
          ["content.English"].contains m.score_category) &&
          m.author_id != "X") ≤ 1000 →
        ∀ m, m ∈ r ↔ (m ∈ [suggA, suggB] ∧ m.status = STATUS_IN_REVIEW ∧
          m.score_category ∈ ["content.English"] ∧ m.author_id ≠ "X")) :=
  (reviewable_by_category_spec [suggA, suggB] ["content.English"] "X"
    1000).1 (by decide)

/-- Filtering a replicated list by a predicate the element satisfies keeps
the whole list. -/
theorem filter_replicate_of_pos {α : Type} {p : α → Bool} {s : α}
    (h : p s = true) : ∀ n, (List.replicate n s).filter p = List.replicate n s := by
  intro n
  induction n with
  | zero => rfl
  | succ k ih => simp [List.replicate_succ, List.filter_cons, h, ih]

/-- C6 amended: the generic query and the three routing queries are bounded
by the threaded query limit, but the staleness scan fetches with no limit
and can exceed any bound (export_data likewise fetches with no limit; see
the counterexample). -/
theorem bounded_queries_and_unbounded_scans :
    (∀ (store : List GeneralSuggestionModel) qfv limit r,
      query_suggestions store qfv limit = .ok r → r.length ≤ limit) ∧
    (∀ (store : List GeneralSuggestionModel) S u limit r,
      get_in_review_suggestions_in_score_categories store S u limit = .ok r →
        r.length ≤ limit) ∧
    (∀ (store : List GeneralSuggestionModel) t u limit,
      (get_in_review_suggestions_of_suggestion_type store t u limit).length ≤
        limit) ∧
    (∀ (store : List GeneralSuggestionModel) t u limit,
      (get_user_created_suggestions_of_suggestion_type store t u limit).length ≤
        limit) ∧
    (∀ n : Nat, ∃ (store : List GeneralSuggestionModel) (now : Int),
      n < (get_all_stale_suggestions store now).length) := by
  refine ⟨?_, ?_, ?_, ?_, ?_⟩
  · intro store qfv limit r hok
    unfold query_suggestions at hok
    cases happ : applyQueryFilters store qfv with
    | error e =>
      rw [happ] at hok
      exact Except.noConfusion hok
    | ok l =>
      rw [happ] at hok
      simp only [Except.map] at hok
      cases hok
      exact List.length_take_le _ _
  · intro store S u limit r hok
    unfold get_in_review_suggestions_in_score_categories at hok
    split at hok
    · exact Except.noConfusion hok
    · cases hok
      exact List.length_take_le _ _
  · intro store t u limit
    exact List.length_take_le _ _
  · intro store t u limit
    exact List.length_take_le _ _
  · intro n
    refine ⟨List.replicate (n + 1) suggA, 604800001, ?_⟩
    rw [get_all_stale_suggestions, get_all_stale_suggestions_with_threshold]
    rw [filter_replicate_of_pos (by decide), filter_replicate_of_pos (by decide)]
    rw [List.length_replicate]
    omega

/-- Witness for C6 amended: a bounded query at limit 1 over a two-record
store returns one record. -/
theorem bounded_queries_and_unbounded_scans_witness :
    ([suggA] : List GeneralSuggestionModel).length ≤ 1 :=
  bounded_queries_and_unbounded_scans.1 [suggA, suggB]
    [("author_id", "X")] 1 [suggA] rfl

/-- Counterexample to C6 as stated: the staleness scan and the export scan
both fetch with no limit, so each can return more records than a fixed
query limit of 1 - two stale IN_REVIEW records are all returned, and two
suggestions authored by X are both exported. -/
theorem unbounded_fetch_exceeds_limit :
    ¬ ((get_all_stale_suggestions [suggA, suggB] 604800001).length ≤ 1) ∧
    ¬ ((export_data [suggA, suggC] "X").length ≤ 1) := by decide

/-- Inserting a key absent from a dictionary appends the pair at the
end. -/
theorem upsert_fresh (d : List (String × SuggestionExportData)) (k : String)
    (v : SuggestionExportData) (h : ∀ p ∈ d, p.1 ≠ k) :
    upsert d k v = d ++ [(k, v)] := by
  induction d with
  | nil => rfl
  | cons q rest ih =>
    rcases q with ⟨k0, v0⟩
    have hk0 : k0 ≠ k := h (k0, v0) (List.mem_cons_self _ _)
    simp only [upsert, if_neg hk0, List.cons_append, List.cons.injEq, true_and]
    exact ih (fun p hp => h p (List.mem_cons_of_mem _ hp))

/-- Folding dictionary insertion over records with pairwise-distinct ids
from an accumulator whose keys avoid those ids appends one entry per
record. -/
theorem export_fold_eq_map (l : List GeneralSuggestionModel) :
    ∀ d : List (String × SuggestionExportData),
      (l.map (fun m => m.id)).Nodup →
      (∀ p ∈ d, p.1 ∉ l.map (fun m => m.id)) →
      l.foldl (fun d m => upsert d m.id (exportEntryOf m)) d =
        d ++ l.map (fun m => (m.id, exportEntryOf m)) := by
  induction l with
  | nil =>
    intro d _ _
    simp
  | cons m rest ih =>
    intro d hnd hdis
    simp only [List.map_cons, List.nodup_cons] at hnd
    have hfresh : ∀ p ∈ d, p.1 ≠ m.id := by
      intro p hp
      have := hdis p hp
      simp only [List.map_cons, List.mem_cons] at this
      exact fun he => this (Or.inl he)
    have hdis' : ∀ p ∈ d ++ [(m.id, exportEntryOf m)],
        p.1 ∉ rest.map (fun m => m.id) := by
      intro p hp
      rcases List.mem_append.mp hp with h' | h'
      · intro hin
        have := hdis p h'
        simp only [List.map_cons, List.mem_cons] at this
        exact this (Or.inr hin)
      · simp only [List.mem_singleton] at h'
        subst h'
        exact hnd.1
    simp only [List.foldl_cons]
    rw [upsert_fresh d m.id _ hfresh, ih (d ++ [(m.id, exportEntryOf m)])
      hnd.2 hdis']
    simp

/-- C7: for every store whose ids are pairwise distinct (the invariant
create maintains), export_data for user u returns an empty mapping (never
an error) when u authored nothing, has exactly one entry per suggestion
authored by u, and every entry is keyed by the suggestion's id with a value
of type SuggestionExportData, which carries only suggestion_type,
target_type, target_id, target_version_at_submission, status and change_cmd
and by construction has no author_id, final_reviewer_id or score_category
field. -/
theorem export_data_spec (store : List GeneralSuggestionModel) (u : String)
    (h : (store.map (fun m => m.id)).Nodup) :
    ((∀ m ∈ store, m.author_id ≠ u) → export_data store u = []) ∧
    (export_data store u).length =
      store.countP (fun m => m.author_id == u) ∧
    (∀ p ∈ export_data store u, ∃ m, m ∈ store ∧ m.author_id = u ∧
      p.1 = m.id ∧ p.2 = exportEntryOf m) := by
  have hnodup : ((store.filter (fun m => m.author_id == u)).map
      (fun m => m.id)).Nodup :=
    List.Nodup.sublist ((List.filter_sublist store).map _) h
  have hexp : export_data store u = (store.filter
      (fun m => m.author_id == u)).map (fun m => (m.id, exportEntryOf m)) := by
    rw [export_data, export_fold_eq_map _ [] hnodup (by simp)]
    simp
  refine ⟨?_, ?_, ?_⟩
  · intro hnone
    rw [hexp, List.filter_eq_nil_iff.mpr ?_]
    · rfl
    · intro m hm
      simpa using hnone m hm
  · rw [hexp, List.length_map, List.countP_eq_length_filter]
  · intro p hp
    rw [hexp] at hp
    obtain ⟨m, hm, rfl⟩ := List.mem_map.mp hp
    have := List.mem_filter.mp hm
    exact ⟨m, this.1, by simpa using this.2, rfl, rfl⟩

/-- Witness for C7 at a concrete input: in the two-record store
[suggA, suggC], both authored by X with distinct ids, the export for X has
both entries and the export characterization holds. -/
theorem export_data_spec_witness :
    ((∀ m ∈ [suggA, suggC], m.author_id ≠ "Z") →
      export_data [suggA, suggC] "Z" = []) ∧
    (export_data [suggA, suggC] "Z").length =
      [suggA, suggC].countP (fun m => m.author_id == "Z") ∧
    (∀ p ∈ export_data [suggA, suggC] "Z", ∃ m, m ∈ [suggA, suggC] ∧
      m.author_id = "Z" ∧ p.1 = m.id ∧ p.2 = exportEntryOf m) :=
  export_data_spec [suggA, suggC] "Z" (by decide)

/-- The character-list split never returns an empty list of components. -/
theorem splitOnChar_ne_nil (c : Char) (l : List Char) :
    splitOnChar c l ≠ [] := by
  cases l with
  | nil => exact fun h => List.noConfusion h
  | cons x xs =>
    rw [splitOnChar]
    cases splitOnChar c xs with
    | nil => exact fun h => List.noConfusion h
    | cons a b =>
      by_cases hxc : x = c <;> simp [hxc]

/-- Splitting a list that starts with a delimiter-free block followed by
the delimiter peels off that block as the first component. -/
theorem splitOnChar_append (c : Char) (a rest : List Char) (h : c ∉ a) :
    splitOnChar c (a ++ c :: rest) = a :: splitOnChar c rest := by
  induction a with
  | nil =>
    show splitOnChar c (c :: rest) = [] :: splitOnChar c rest
    rw [splitOnChar]
    cases hr : splitOnChar c rest with
    | nil => exact absurd hr (splitOnChar_ne_nil c rest)
    | cons x t => simp
  | cons y ys ih =>
    have hy : y ≠ c := fun hyc => h (hyc ▸ List.mem_cons_self y ys)
    have h' : c ∉ ys := fun hc => h (List.mem_cons_of_mem y hc)
    show splitOnChar c (y :: (ys ++ c :: rest)) = (y :: ys) :: splitOnChar c rest
    rw [splitOnChar, ih h']
    simp [hy]

/-- Counterexample to C9 as stated: create persists a score_category with
no score-type component at all - here category1, the very value the
repository's own tests use - so a record reachable through the Lifecycle
Engine violates the claimed shape invariant. -/
theorem score_category_shape_not_enforced :
    create [] SUGGESTION_TYPE_EDIT_STATE_CONTENT TARGET_TYPE_EXPLORATION
        "exp1" 1 STATUS_IN_REVIEW "author_3" (some "reviewer_2") []
        "category1" "exploration.exp1.thread_6" 0 =
      .ok [categoryOnlyRecord] ∧
    categoryOnlyRecord.score_category = "category1" ∧
    scoreCategoryWellFormed categoryOnlyRecord.score_category = false :=
  ⟨rfl, rfl, rfl⟩

/-- C9 amended: the documented dotted shape of score_category is a caller
convention, not enforced by the core - create persists the given
score_category verbatim, so every record a successful create adds carries
exactly the caller's value, and the shape invariant holds precisely for the
records whose callers follow the convention: any value formed as a
score type from SCORE_TYPE_CHOICES, the delimiter, and a subcategory
splits into a first component that is that score type (delimiter-free and
in the choice set). -/
theorem score_category_conventional_shape :
    (∀ t sub : String, t ∈ SCORE_TYPE_CHOICES →
      scoreCategoryWellFormed (t ++ "." ++ sub) = true) ∧
    (∀ (store : List GeneralSuggestionModel) (st tt tid : String) (ver : Int)
        (status author : String) (rev : Option String)
        (cmd : List (String × String)) (sc id : String) (now : Int)
        (r : List GeneralSuggestionModel),
      create store st tt tid ver status author rev cmd sc id now = .ok r →
      ∀ m ∈ r, m ∈ store ∨ m.score_category = sc) := by
  constructor
  · intro t sub ht
    simp only [SCORE_TYPE_CHOICES, SCORE_TYPE_CONTENT, SCORE_TYPE_TRANSLATION,
      SCORE_TYPE_QUESTION, List.mem_cons, List.mem_singleton,
      List.not_mem_nil, or_false] at ht
    rcases ht with rfl | rfl | rfl
    · have htl : ("content" ++ "." ++ sub).toList =
          ['c', 'o', 'n', 't', 'e', 'n', 't'] ++ SCORE_CATEGORY_DELIMITER :: sub.toList := rfl
      rw [scoreCategoryWellFormed, htl,
        splitOnChar_append SCORE_CATEGORY_DELIMITER
          ['c', 'o', 'n', 't', 'e', 'n', 't'] sub.toList (by decide)]
      rfl
    · have htl : ("translation" ++ "." ++ sub).toList =
          ['t', 'r', 'a', 'n', 's', 'l', 'a', 't', 'i', 'o', 'n'] ++
            SCORE_CATEGORY_DELIMITER :: sub.toList := rfl
      rw [scoreCategoryWellFormed, htl,
        splitOnChar_append SCORE_CATEGORY_DELIMITER
          ['t', 'r', 'a', 'n', 's', 'l', 'a', 't', 'i', 'o', 'n']
          sub.toList (by decide)]
      rfl
    · have htl : ("question" ++ "." ++ sub).toList =
          ['q', 'u', 'e', 's', 't', 'i', 'o', 'n'] ++ SCORE_CATEGORY_DELIMITER :: sub.toList := rfl
      rw [scoreCategoryWellFormed, htl,
        splitOnChar_append SCORE_CATEGORY_DELIMITER
          ['q', 'u', 'e', 's', 't', 'i', 'o', 'n'] sub.toList (by decide)]
      rfl
  · intro store st tt tid ver status author rev cmd sc id now r hok m hm
    rw [create] at hok
    split at hok
    · exact Except.noConfusion hok
    · rw [put] at hok
      split at hok
      · exact Except.noConfusion hok
      · split at hok
        · exact Except.noConfusion hok
        · split at hok
          · exact Except.noConfusion hok
          · injection hok with hr
            subst hr
            rcases List.mem_append.mp hm with h' | h'
            · exact Or.inl h'
            · simp only [List.mem_singleton] at h'
              subst h'
              exact Or.inr rfl

/-- Witness for C9 amended: content.English is well-formed, and the record
created over the empty store with that category carries it verbatim. -/
theorem score_category_conventional_shape_witness :
    scoreCategoryWellFormed ("content" ++ "." ++ "English") = true ∧
    (suggA ∈ ([] : List GeneralSuggestionModel) ∨
      suggA.score_category = "content.English") :=
  ⟨score_category_conventional_shape.1 "content" "English" (by decide),
   score_category_conventional_shape.2 [] SUGGESTION_TYPE_EDIT_STATE_CONTENT
     TARGET_TYPE_EXPLORATION "exp1" 1 STATUS_IN_REVIEW "X" none []
     "content.English" "exploration.exp1.thread_1" 0 [suggA] rfl suggA
     (by simp)⟩

end OppiaSuggestion
